import Mathlib

/-!
Verification of the hierarchical navigation state engine and the content
scanner of the `megacodist/articles` repository.

The development shallowly embeds:

- `src/lib/sidebar/hooks.ts` — the expansion reconciler (`useExpandedState`)
  and the active-selection reconciler (`useActiveState`);
- `src/lib/sidebar/SidebarNodeRenderer.tsx` — the render-context distributor
  (per-node context computation, kind-guarded mutators, recursion into the
  children of expanded branches);
- `src/lib/sidebar/context.ts` — the context accessor (`useSidebarContext`);
- `src/features/docs-sidebar/scanner.ts` — `sortNodes` and `processLeaf`.

React state cells (`useState`) are modelled by explicit state passing: each
mutator is a pure function from the current internal store to the next one.
A JavaScript `Set<string>` is modelled as a duplicate-free `List String` in
insertion order (`Set.add` appends when absent, `Set.delete` removes, `has`
is membership); only membership and insertion order are observable in the
source, and both are preserved exactly by this model.
-/

-- ===========================================================================
-- JavaScript Set<string> model
-- ===========================================================================

/-- Membership test of a JavaScript `Set`, `s.has(x)`. -/
def jsSetHas (s : List String) (x : String) : Bool :=
  decide (x ∈ s)

/-- Insertion into a JavaScript `Set`, `s.add(x)`: appends `x` unless it is
already present (a JS set never holds duplicates). -/
def jsSetAdd (s : List String) (x : String) : List String :=
  if x ∈ s then s else s ++ [x]

/-- Removal from a JavaScript `Set`, `s.delete(x)`. -/
def jsSetDelete (s : List String) (x : String) : List String :=
  s.filter (fun y => decide (y ≠ x))

-- ===========================================================================
-- Tree data model (src/types/m3a-sidebar.tsx)
-- ===========================================================================

/-- Discriminated union `SidebarNode = BranchNode | LeafNode`.
A branch carries `id`, `name`, the optional `disabled` flag (absent modelled
as `false`, exactly how the source reads it), an ordered `children` list and
an optional payload; a leaf carries a mandatory payload.  The purely visual
`icon` field is never read by the engine and is omitted. -/
inductive SidebarNode (α : Type) where
  | branch (id : String) (name : String) (disabled : Bool)
      (children : List (SidebarNode α)) (content : Option α)
  | leaf (id : String) (name : String) (disabled : Bool) (content : α)

namespace SidebarNode

/-- Unique identifier of a node. -/
def nodeId {α : Type} : SidebarNode α → String
  | .branch id _ _ _ _ => id
  | .leaf id _ _ _ => id

/-- Discriminant test, `node.type === "branch"`. -/
def isBranch {α : Type} : SidebarNode α → Bool
  | .branch _ _ _ _ _ => true
  | .leaf _ _ _ _ => false

/-- Children of a node; a leaf has none. -/
def childrenOf {α : Type} : SidebarNode α → List (SidebarNode α)
  | .branch _ _ _ cs _ => cs
  | .leaf _ _ _ _ => []

end SidebarNode

-- ===========================================================================
-- Expansion reconciler (useExpandedState, src/lib/sidebar/hooks.ts)
-- ===========================================================================

/-- Construction inputs of `useExpandedState`.  `controlledIds = some _`
models a provided `controlledIds` prop (controlled mode, even when the set
is empty); `none` models `undefined` (uncontrolled mode).  Likewise for
`defaultIds`. -/
structure ExpandedCfg (α : Type) where
  data : List (SidebarNode α)
  controlledIds : Option (List String)
  defaultIds : Option (List String)
  defaultExpandAll : Bool

mutual

/-- Body of `traverse` inside `collectBranchIds`: adds the id of a branch
node, then visits its children in order; ignores leaves. -/
def collectBranchIdsNode {α : Type} (acc : List String) :
    SidebarNode α → List String
  | .leaf _ _ _ _ => acc
  | .branch id _ _ children _ => collectBranchIdsList (jsSetAdd acc id) children

/-- Sequential `forEach(traverse)` over a node list. -/
def collectBranchIdsList {α : Type} (acc : List String) :
    List (SidebarNode α) → List String
  | [] => acc
  | n :: rest => collectBranchIdsList (collectBranchIdsNode acc n) rest

end

/-- Pre-order collection of all branch-node ids (`collectBranchIds`). -/
def collectBranchIds {α : Type} (nodes : List (SidebarNode α)) : List String :=
  collectBranchIdsList [] nodes

namespace ExpandedState

/-- Mode test: `const isControlled = controlledIds !== undefined`. -/
def isControlled {α : Type} (cfg : ExpandedCfg α) : Bool :=
  cfg.controlledIds.isSome

/-- The set the reconciler exposes:
`const expandedIds = controlledIds ?? internalIds`. -/
def expandedIds {α : Type} (cfg : ExpandedCfg α) (internal : List String) :
    List String :=
  cfg.controlledIds.getD internal

/-- Initial internal state, computed once on mount: all branch ids when
`defaultExpandAll`, else the explicit default set, else the empty set. -/
def initialIds {α : Type} (cfg : ExpandedCfg α) : List String :=
  if cfg.defaultExpandAll then collectBranchIds cfg.data
  else cfg.defaultIds.getD []

/-- Membership predicate `isExpanded(id)`: `expandedIds.has(id)`. -/
def isExpanded {α : Type} (cfg : ExpandedCfg α) (internal : List String)
    (id : String) : Bool :=
  jsSetHas (expandedIds cfg internal) id

/-- Mutator `toggle(id)`: returns the next internal store.  In controlled
mode it returns the store unchanged (`if (isControlled) return`); otherwise
it flips membership of exactly that id. -/
def toggle {α : Type} (cfg : ExpandedCfg α) (internal : List String)
    (id : String) : List String :=
  if isControlled cfg then internal
  else if jsSetHas internal id then jsSetDelete internal id
  else jsSetAdd internal id

/-- Mutator `setExpanded(id, expanded)`: no-op on the store in controlled
mode; otherwise adds or deletes the id. -/
def setExpanded {α : Type} (cfg : ExpandedCfg α) (internal : List String)
    (id : String) (expanded : Bool) : List String :=
  if isControlled cfg then internal
  else if expanded then jsSetAdd internal id
  else jsSetDelete internal id

end ExpandedState

-- ===========================================================================
-- Active-selection reconciler (useActiveState, src/lib/sidebar/hooks.ts)
-- ===========================================================================

/-- Construction inputs of `useActiveState`.  The outer `Option` of
`controlledId` distinguishes a provided prop (controlled, possibly `null`)
from `undefined` (uncontrolled); the inner `Option String` is
`string | null`. -/
structure ActiveCfg where
  controlledId : Option (Option String)
  defaultId : Option String

namespace ActiveState

/-- Mode test: `controlledId !== undefined`. -/
def isControlled (cfg : ActiveCfg) : Bool :=
  cfg.controlledId.isSome

/-- The exposed id: `isControlled ? controlledId : internalId`. -/
def activeId (cfg : ActiveCfg) (internal : Option String) : Option String :=
  match cfg.controlledId with
  | some c => c
  | none => internal

/-- Predicate `isActive(id)`: `activeId === id`. -/
def isActive (cfg : ActiveCfg) (internal : Option String) (id : String) :
    Bool :=
  activeId cfg internal == some id

/-- Mutator `setActive(id)`: updates the internal cell only when
uncontrolled. -/
def setActive (cfg : ActiveCfg) (internal : Option String)
    (v : Option String) : Option String :=
  if isControlled cfg then internal else v

end ActiveState

-- ===========================================================================
-- Render-context distributor (SidebarNodeRenderer.tsx)
-- ===========================================================================

/-- Pure data part of `NodeRenderContext`: the node plus the positional and
state flags `SidebarNodeRendererInner` computes for it.  The three mutator
closures of the source context close over the reconciler state; they are
modelled as the explicit functions `ctxToggle` and `ctxSetExpanded` below. -/
structure RenderCtx (α : Type) where
  node : SidebarNode α
  depth : Nat
  index : Nat
  isFirst : Bool
  isLast : Bool
  isExpanded : Bool
  isActive : Bool
  hasChildren : Bool

/-- Context value `SidebarNodeRendererInner` computes for one node, given
the ambient `expandedIds` set and `activeId`:
`isExpanded = node.type === "branch" && expandedIds.has(node.id)`,
`isActive = activeId === node.id`,
`hasChildren = node.type === "branch" && node.children.length > 0`,
`isFirst = index === 0`, `isLast = index === siblingsCount - 1` (JS integer
arithmetic, hence the comparison over `Int`). -/
def mkRenderCtx {α : Type} (e : List String) (a : Option String)
    (node : SidebarNode α) (depth index sibCount : Nat) : RenderCtx α :=
  { node := node
    depth := depth
    index := index
    isFirst := index == 0
    isLast := decide ((index : Int) = (sibCount : Int) - 1)
    isExpanded := node.isBranch && jsSetHas e node.nodeId
    isActive := a == some node.nodeId
    hasChildren := node.isBranch && decide (0 < node.childrenOf.length) }

mutual

/-- One traversal pass of `SidebarNodeRendererInner` rooted at `node`,
returning the sequence of render contexts it produces in pre-order.  The
children block is rendered only under the source guard
`node.type === "branch" && isExpanded && node.children.length > 0`. -/
def renderPass {α : Type} (e : List String) (a : Option String) :
    SidebarNode α → Nat → Nat → Nat → List (RenderCtx α)
  | .leaf id nm ds ct, depth, index, sibCount =>
      [mkRenderCtx e a (.leaf id nm ds ct) depth index sibCount]
  | .branch id nm ds children ct, depth, index, sibCount =>
      mkRenderCtx e a (.branch id nm ds children ct) depth index sibCount ::
        (if jsSetHas e id && decide (0 < children.length) then
          renderChildren e a children (depth + 1) children.length 0
        else [])

/-- The source `node.children.map((child, childIndex) => ...)` block:
renders each child at `depth + 1` with its running index and the sibling
count of the child list, concatenating the produced context sequences. -/
def renderChildren {α : Type} (e : List String) (a : Option String) :
    List (SidebarNode α) → Nat → Nat → Nat → List (RenderCtx α)
  | [], _, _, _ => []
  | c :: rest, depth, sibCount, i =>
      renderPass e a c depth i sibCount ++
        renderChildren e a rest depth sibCount (i + 1)

end

/-- Context mutator `toggle()` of `SidebarNodeRendererInner`: a no-op that
invokes nothing on a non-branch node; on a branch it computes
`newExpanded = !expandedIds.has(node.id)` from the exposed set, calls the
reconciler (`toggleNode`) and fires `onToggle?.(node, newExpanded)`.  The
result pairs the next internal store with the callback invocation (`none`
when the callback is not fired). -/
def ctxToggle {α : Type} (cfg : ExpandedCfg α) (s : List String)
    (node : SidebarNode α) : List String × Option (SidebarNode α × Bool) :=
  if node.isBranch then
    (ExpandedState.toggle cfg s node.nodeId,
      some (node, !jsSetHas (ExpandedState.expandedIds cfg s) node.nodeId))
  else (s, none)

/-- Context mutator `setExpanded(expanded)` of `SidebarNodeRendererInner`:
a no-op that invokes nothing on a non-branch node; on a branch it calls the
reconciler (`setNodeExpanded`) and unconditionally fires
`onToggle?.(node, expanded)`. -/
def ctxSetExpanded {α : Type} (cfg : ExpandedCfg α) (s : List String)
    (node : SidebarNode α) (expanded : Bool) :
    List String × Option (SidebarNode α × Bool) :=
  if node.isBranch then
    (ExpandedState.setExpanded cfg s node.nodeId expanded,
      some (node, expanded))
  else (s, none)

-- ===========================================================================
-- Context accessor (useSidebarContext, src/lib/sidebar/context.ts)
-- ===========================================================================

/-- Accessor `useSidebarContext`: the ambient React context is `null`
(modelled `none`) outside every `SidebarProvider`; the accessor throws in
that case and returns the context value otherwise. -/
def useSidebarContext {α : Type} (ctx : Option α) : Except String α :=
  match ctx with
  | none =>
      Except.error "useSidebarContext must be used within a SidebarProvider"
  | some v => Except.ok v

-- ===========================================================================
-- Content scanner (src/features/docs-sidebar/scanner.ts)
-- ===========================================================================

/-- Front matter as gray-matter returns it; every field may be absent
(`Partial<ArticleFrontMatter>`). -/
structure PartialFrontMatter where
  slug : Option String
  title : Option String
  authors : Option (List String)
  created_on : Option String
  status : Option String
  weight : Option Int

/-- Structured warning object for a specific file (`ArticleWarning`). -/
structure ArticleWarning where
  missingFields : List String
  slugMismatch : Option String
  badMarkdown : Option String

/-- Result of one `processLeaf` call that returns (rather than throws): the
produced leaf, if any, and the warning entry the call registers in the
`warnings` accumulator, keyed by the relative file path. -/
structure ProcessOutcome where
  node : Option PartialFrontMatter
  warningEntry : Option (String × ArticleWarning)

/-- Model of `processLeaf`, translated literally from the source.

The source reads the file and parses it inside a `try` block:

  try {
    const fileContent = await fs.readFile(fullPath, "utf-8");
    const { data } = matter(fileContent);
  } catch (e) { ... record badMarkdown warning ...; return null; }
  ...
  frontMatter = data as Partial<ArticleFrontMatter>;

The destructured binding `data` is a block-scoped `const` that exists only
inside the `try` block, yet line 176 references `data` after the block.
Under TypeScript this is "Cannot find name" and under transpile-only
execution a `ReferenceError` raised outside the `try`/`catch`, which
propagates out of `processLeaf` (aborting the surrounding scan).  The model
therefore takes the parse result of the file as input and returns:
`Except.error` (the thrown `ReferenceError`) whenever parsing succeeded, and
the `badMarkdown` warning plus `null` node when parsing failed (the `catch`
branch, the only path that completes normally). -/
def processLeaf (relativePath : String)
    (parsed : Except String PartialFrontMatter) :
    Except String ProcessOutcome :=
  match parsed with
  | Except.error msg =>
      Except.ok
        { node := none
          warningEntry :=
            some (relativePath,
              { missingFields := [], slugMismatch := none,
                badMarkdown := some msg }) }
  | Except.ok _ => Except.error "ReferenceError: data is not defined"

/-- Nodes the scanner emits (`SidebarNode` of scanner.ts): a branch is a
folder, a leaf is an article whose front-matter fields relevant to sorting
are its optional numeric `weight` and its creation timestamp
(`new Date(content.created_on).getTime()`, modelled as the integer number of
milliseconds). -/
inductive ScanNode where
  | branch (id : String) (name : String) (children : List ScanNode)
  | leaf (id : String) (name : String) (weight : Option Int)
      (createdOn : Int)

namespace ScanNode

/-- Display name of a node. -/
def name : ScanNode → String
  | .branch _ nm _ => nm
  | .leaf _ nm _ _ => nm

/-- Discriminant test `n.type === "branch"`. -/
def isBranch : ScanNode → Bool
  | .branch _ _ _ => true
  | .leaf _ _ _ _ => false

/-- Discriminant test `n.type === "leaf"`. -/
def isLeaf : ScanNode → Bool
  | .branch _ _ _ => false
  | .leaf _ _ _ _ => true

/-- Optional weight of a leaf (irrelevant for branches). -/
def weight : ScanNode → Option Int
  | .branch _ _ _ => none
  | .leaf _ _ w _ => w

/-- Creation timestamp of a leaf (irrelevant for branches). -/
def createdOn : ScanNode → Int
  | .branch _ _ _ => 0
  | .leaf _ _ _ d => d

end ScanNode

/-- Priority of a folder name:
`m3Config.articles.folderPriority[name] ?? 999`.  The lookup table is a
parameter because the claims exercise the scanner under different
configured tables. -/
def folderPriorityOf (prio : String → Option Int) (nm : String) : Int :=
  (prio nm).getD 999

/-- The folder-priority table shipped in `m3.config.ts`. -/
def m3FolderPriority : String → Option Int := fun nm =>
  if nm = "JavaScript" then some 1
  else if nm = "React" then some 2
  else if nm = "Git" then some 3
  else if nm = "CSS" then some 4
  else none

/-- Branch comparator of `sortNodes` as a total preorder: the JS comparator
returns `priorityA - priorityB` when the priorities differ and
`a.name.localeCompare(b.name)` otherwise, so `comparator(a, b) <= 0` holds
exactly when the priority of `a` is smaller, or the priorities are equal and
the name of `a` is no greater (`localeCompare` modelled as code-point order;
the two agree on every name the configuration and the claims mention). -/
def branchLe (prio : String → Option Int) (a b : ScanNode) : Prop :=
  folderPriorityOf prio a.name < folderPriorityOf prio b.name ∨
    (folderPriorityOf prio a.name = folderPriorityOf prio b.name ∧
      a.name ≤ b.name)

/-- Weight key of a leaf: `content.weight ?? Infinity`, a missing weight
sorting above every present one. -/
def weightKey (n : ScanNode) : WithTop Int :=
  match n.weight with
  | some w => (w : WithTop Int)
  | none => ⊤

/-- Leaf comparator of `sortNodes` as a total preorder: weight ascending
(missing weight last); on equal weights `dateB - dateA`, i.e. newest first,
so `comparator(a, b) <= 0` holds exactly when the weight of `a` is smaller,
or the weights are equal and the date of `b` is no greater. -/
def leafLe (a b : ScanNode) : Prop :=
  weightKey a < weightKey b ∨
    (weightKey a = weightKey b ∧ b.createdOn ≤ a.createdOn)

instance (prio : String → Option Int) : DecidableRel (branchLe prio) :=
  fun a b => by unfold branchLe; infer_instance

instance : DecidableRel leafLe :=
  fun a b => by unfold leafLe; infer_instance

instance (prio : String → Option Int) : IsTotal ScanNode (branchLe prio) where
  total a b := by
    unfold branchLe
    rcases lt_trichotomy (folderPriorityOf prio a.name)
        (folderPriorityOf prio b.name) with h | h | h
    · exact Or.inl (Or.inl h)
    · rcases le_total a.name b.name with h2 | h2
      · exact Or.inl (Or.inr ⟨h, h2⟩)
      · exact Or.inr (Or.inr ⟨h.symm, h2⟩)
    · exact Or.inr (Or.inl h)

instance (prio : String → Option Int) : IsTrans ScanNode (branchLe prio) where
  trans a b c hab hbc := by
    unfold branchLe at *
    rcases hab with h1 | ⟨h1, h1n⟩ <;> rcases hbc with h2 | ⟨h2, h2n⟩
    · exact Or.inl (h1.trans h2)
    · exact Or.inl (h2 ▸ h1)
    · exact Or.inl (h1 ▸ h2)
    · exact Or.inr ⟨h1.trans h2, h1n.trans h2n⟩

instance : IsTotal ScanNode leafLe where
  total a b := by
    unfold leafLe
    rcases lt_trichotomy (weightKey a) (weightKey b) with h | h | h
    · exact Or.inl (Or.inl h)
    · rcases le_total a.createdOn b.createdOn with h2 | h2
      · exact Or.inr (Or.inr ⟨h.symm, h2⟩)
      · exact Or.inl (Or.inr ⟨h, h2⟩)
    · exact Or.inr (Or.inl h)

instance : IsTrans ScanNode leafLe where
  trans a b c hab hbc := by
    unfold leafLe at *
    rcases hab with h1 | ⟨h1, h1n⟩ <;> rcases hbc with h2 | ⟨h2, h2n⟩
    · exact Or.inl (h1.trans h2)
    · exact Or.inl (h2 ▸ h1)
    · exact Or.inl (h1 ▸ h2)
    · exact Or.inr ⟨h1.trans h2, h2n.trans h1n⟩

/-- Model of `sortNodes`: splits the list into branches and leaves
(preserving encounter order, as the two `filter` calls do), sorts each part
with its comparator and concatenates branches before leaves.
`Array.prototype.sort` is stable (ES2019), so it is modelled by stable
insertion sort with respect to `comparator(a, b) <= 0`. -/
def sortNodes (prio : String → Option Int) (nodes : List ScanNode) :
    List ScanNode :=
  let branches := nodes.filter fun n => n.isBranch
  let leaves := nodes.filter fun n => n.isLeaf
  List.insertionSort (branchLe prio) branches ++
    List.insertionSort leafLe leaves

-- ===========================================================================
-- Concrete sample inputs used by witnesses and counterexamples
-- ===========================================================================

/-- The priority table of Scenario C of the claims: only "React" is listed,
with priority 1. -/
def prioScenarioC : String → Option Int := fun nm =>
  if nm = "React" then some 1 else none

/-- Subfolder "Git" with one article, as scanned. -/
def scanGit : ScanNode := .branch "git" "Git" [.leaf "g1" "G1" none 0]

/-- Subfolder "React" with one article, as scanned. -/
def scanReact : ScanNode := .branch "react" "React" [.leaf "r1" "R1" none 0]

/-- Priority table holding one listed name whose priority, 1000, is larger
than the 999 sentinel the source assigns to unlisted names. -/
def prioThousand : String → Option Int := fun nm =>
  if nm = "Zz" then some 1000 else none

/-- Unlisted folder. -/
def scanAa : ScanNode := .branch "aa" "Aa" []

/-- Folder listed with priority 1000. -/
def scanZz : ScanNode := .branch "zz" "Zz" []

/-- Tree holding exactly one leaf node, with id "a". -/
def leafOnlyTree : List (SidebarNode Unit) := [.leaf "a" "A" false ()]

/-- Uncontrolled reconciler over the one-leaf tree, no defaults. -/
def cfgLeafTree : ExpandedCfg Unit :=
  { data := leafOnlyTree, controlledIds := none, defaultIds := none,
    defaultExpandAll := false }

/-- Branch "docs" with two leaf children, the tree of Scenarios A and B. -/
def docsBranch : SidebarNode Unit :=
  .branch "docs" "docs" false
    [.leaf "intro" "intro" false (), .leaf "api" "api" false ()] none

/-- Uncontrolled reconciler over the docs tree, default collapsed. -/
def cfgDocs : ExpandedCfg Unit :=
  { data := [docsBranch], controlledIds := none, defaultIds := none,
    defaultExpandAll := false }

/-- Controlled expansion reconciler over the docs tree, the controlled set
holding only "docs". -/
def cfgDocsControlled : ExpandedCfg Unit :=
  { data := [docsBranch], controlledIds := some ["docs"],
    defaultIds := none, defaultExpandAll := false }

/-- Controlled active-selection reconciler whose controlled id is "intro". -/
def acfgControlled : ActiveCfg :=
  { controlledId := some (some "intro"), defaultId := none }

/-- Uncontrolled reconciler over the docs tree whose default set already
holds the ghost id "ghost", an id occurring nowhere in the tree. -/
def cfgGhostDefault : ExpandedCfg Unit :=
  { data := [docsBranch], controlledIds := none,
    defaultIds := some ["ghost"], defaultExpandAll := false }

/-- Parsed front matter of a well-formed article file. -/
def fmSample : PartialFrontMatter :=
  { slug := some "mitigating-prop-drilling", title := some "Prop drilling"
    authors := some ["Megacodist"], created_on := some "2025-01-01"
    status := some "published", weight := none }

-- ===========================================================================
-- Helper lemmas
-- ===========================================================================

theorem jsSetHas_add_self (s : List String) (x : String) :
    jsSetHas (jsSetAdd s x) x = true := by
  by_cases h : x ∈ s <;> simp [jsSetHas, jsSetAdd, h]

theorem jsSetHas_delete_self (s : List String) (x : String) :
    jsSetHas (jsSetDelete s x) x = false := by
  simp [jsSetHas, jsSetDelete]

theorem mem_jsSetAdd_self (s : List String) (x : String) :
    x ∈ jsSetAdd s x := by
  by_cases h : x ∈ s <;> simp [jsSetAdd, h]

theorem jsSetAdd_of_mem {s : List String} {x : String} (h : x ∈ s) :
    jsSetAdd s x = s := by
  simp [jsSetAdd, h]

theorem jsSetDelete_delete (s : List String) (x : String) :
    jsSetDelete (jsSetDelete s x) x = jsSetDelete s x := by
  simp [jsSetDelete, List.filter_filter]

theorem expandedIds_of_uncontrolled {α : Type} {cfg : ExpandedCfg α}
    (h : ExpandedState.isControlled cfg = false) (t : List String) :
    ExpandedState.expandedIds cfg t = t := by
  unfold ExpandedState.isControlled at h
  unfold ExpandedState.expandedIds
  cases h2 : cfg.controlledIds with
  | none => rfl
  | some cs => rw [h2] at h; simp at h

theorem renderChildren_eq_zip_range {α : Type} (e : List String)
    (a : Option String) (cs : List (SidebarNode α)) (d cnt i : Nat) :
    renderChildren e a cs d cnt i =
      ((cs.zip (List.range' i cs.length)).map
        (fun p => renderPass e a p.1 d p.2 cnt)).flatten := by
  induction cs generalizing i with
  | nil => simp [renderChildren]
  | cons c rest ih =>
      rw [renderChildren, List.length_cons, List.range'_succ, List.zip_cons_cons,
        List.map_cons, ih (i + 1)]
      simp

-- ===========================================================================
-- Claim theorems
-- ===========================================================================

/-- C1: in controlled mode (a controlled expanded-id set, respectively a
controlled active id, was supplied at construction), calling `toggle`,
`setExpanded` or `setActive` never changes what `isExpanded` and `isActive`
subsequently report: for every mutated id, boolean argument and queried id,
the report after the call equals the report before it. -/
theorem controlled_mode_never_changes_reports {α : Type}
    (cfg : ExpandedCfg α) (acfg : ActiveCfg) (s : List String)
    (t : Option String) :
    (ExpandedState.isControlled cfg = true →
      ∀ id q b,
        ExpandedState.isExpanded cfg (ExpandedState.toggle cfg s id) q =
          ExpandedState.isExpanded cfg s q ∧
        ExpandedState.isExpanded cfg
            (ExpandedState.setExpanded cfg s id b) q =
          ExpandedState.isExpanded cfg s q) ∧
    (ActiveState.isControlled acfg = true →
      ∀ v q,
        ActiveState.isActive acfg (ActiveState.setActive acfg t v) q =
          ActiveState.isActive acfg t q) := by
  constructor
  · intro h id q b
    constructor <;> simp [ExpandedState.toggle, ExpandedState.setExpanded, h]
  · intro h v q
    simp [ActiveState.setActive, h]

/-- C1 witness: a concrete controlled reconciler pair, with a toggle of
"docs" and an activation of "api" leaving the reports unchanged. -/
theorem controlled_mode_never_changes_reports_witness :
    ExpandedState.isExpanded cfgDocsControlled
        (ExpandedState.toggle cfgDocsControlled [] "docs") "docs" =
      ExpandedState.isExpanded cfgDocsControlled [] "docs" ∧
    ActiveState.isActive acfgControlled
        (ActiveState.setActive acfgControlled none (some "api")) "intro" =
      ActiveState.isActive acfgControlled none "intro" :=
  ⟨((controlled_mode_never_changes_reports cfgDocsControlled acfgControlled
      [] none).1 rfl "docs" "docs" true).1,
    (controlled_mode_never_changes_reports cfgDocsControlled acfgControlled
      [] none).2 rfl (some "api") "intro"⟩

/-- C8: for every id (branch ids in particular) and in either mode, the call
sequence toggle(x); toggle(x) leaves `isExpanded(x)` exactly as it was
before the sequence. -/
theorem toggle_twice_preserves_isExpanded {α : Type} (cfg : ExpandedCfg α)
    (s : List String) (x : String) :
    ExpandedState.isExpanded cfg
        (ExpandedState.toggle cfg (ExpandedState.toggle cfg s x) x) x =
      ExpandedState.isExpanded cfg s x := by
  by_cases hc : ExpandedState.isControlled cfg
  · simp [ExpandedState.toggle, hc]
  · rw [Bool.not_eq_true] at hc
    unfold ExpandedState.isExpanded
    rw [expandedIds_of_uncontrolled hc, expandedIds_of_uncontrolled hc]
    by_cases h : jsSetHas s x = true
    · simp [ExpandedState.toggle, hc, h, jsSetHas_delete_self,
        jsSetHas_add_self]
    · rw [Bool.not_eq_true] at h
      simp [ExpandedState.toggle, hc, h, jsSetHas_delete_self,
        jsSetHas_add_self]

/-- C9: the render-context accessor returns the context exactly when a
provider-initialized context exists, throws the documented error when none
does (no silent default: the returned option is the ambient context
itself). -/
theorem useSidebarContext_fail_fast {α : Type} (c : Option α) :
    (useSidebarContext c).isOk = c.isSome ∧
    (useSidebarContext c).toOption = c ∧
    useSidebarContext (none : Option α) =
      Except.error "useSidebarContext must be used within a SidebarProvider" := by
  cases c <;>
    simp [useSidebarContext, Except.isOk, Except.toBool, Except.toOption]

/-- C10: the expansion reconciler validates no id against the tree.  For an
arbitrary string id — the statement never requires the id to occur in
`cfg.data` — an uncontrolled toggle of an unexpanded id, or an uncontrolled
setExpanded(id, true), makes `isExpanded(id)` report true; and any id put in
the default set (respectively the controlled set) is reported expanded. -/
theorem reconciler_accepts_arbitrary_ids {α : Type} (cfg : ExpandedCfg α)
    (s : List String) (id : String) :
    (ExpandedState.isControlled cfg = false →
      (ExpandedState.isExpanded cfg s id = false →
        ExpandedState.isExpanded cfg (ExpandedState.toggle cfg s id) id =
          true) ∧
      ExpandedState.isExpanded cfg
          (ExpandedState.setExpanded cfg s id true) id = true) ∧
    (∀ ds, cfg.controlledIds = none → cfg.defaultExpandAll = false →
      cfg.defaultIds = some ds → id ∈ ds →
      ExpandedState.isExpanded cfg (ExpandedState.initialIds cfg) id =
        true) ∧
    (∀ cs, cfg.controlledIds = some cs → id ∈ cs →
      ExpandedState.isExpanded cfg s id = true) := by
  refine ⟨fun hc => ⟨fun hex => ?_, ?_⟩, fun ds h1 h2 h3 h4 => ?_,
    fun cs h1 h2 => ?_⟩
  · unfold ExpandedState.isExpanded at hex ⊢
    rw [expandedIds_of_uncontrolled hc] at hex
    rw [expandedIds_of_uncontrolled hc]
    simp [ExpandedState.toggle, hc, hex, jsSetHas_add_self]
  · unfold ExpandedState.isExpanded
    rw [expandedIds_of_uncontrolled hc]
    simp [ExpandedState.setExpanded, hc, jsSetHas_add_self]
  · unfold ExpandedState.isExpanded ExpandedState.initialIds
      ExpandedState.expandedIds
    rw [h1, h2, h3]
    simpa [jsSetHas] using h4
  · unfold ExpandedState.isExpanded ExpandedState.expandedIds
    rw [h1]
    simpa [jsSetHas] using h2

/-- C10 witness: the ghost id "ghost" occurs nowhere in the docs tree, yet
toggling it reports it expanded, a default set holding it reports it
expanded, and the controlled set holding "docs" reports "docs" expanded. -/
theorem reconciler_accepts_arbitrary_ids_witness :
    ExpandedState.isExpanded cfgDocs
        (ExpandedState.toggle cfgDocs [] "ghost") "ghost" = true ∧
    ExpandedState.isExpanded cfgGhostDefault
        (ExpandedState.initialIds cfgGhostDefault) "ghost" = true ∧
    ExpandedState.isExpanded cfgDocsControlled [] "docs" = true :=
  ⟨((reconciler_accepts_arbitrary_ids cfgDocs [] "ghost").1 rfl).1
      (by decide),
    (reconciler_accepts_arbitrary_ids cfgGhostDefault [] "ghost").2.1
      ["ghost"] rfl rfl rfl (by decide),
    (reconciler_accepts_arbitrary_ids cfgDocsControlled [] "docs").2.2
      ["docs"] rfl (by decide)⟩

/-- C2 counterexample: "a" is the id of a leaf node of the supplied tree,
yet after an uncontrolled toggle of "a" the expansion reconciler reports
`isExpanded("a") = true`, and the toggle was not a no-op on the reported
state — the reconciler itself never inspects node kinds.  The kind guard
the claim attributes to the reconciler lives in the render-context
distributor (see the C2 theorem). -/
theorem reconciler_reports_toggled_leaf_expanded :
    leafOnlyTree = [SidebarNode.leaf "a" "A" false ()] ∧
    ExpandedState.isExpanded cfgLeafTree
        (ExpandedState.initialIds cfgLeafTree) "a" = false ∧
    ExpandedState.isExpanded cfgLeafTree
        (ExpandedState.toggle cfgLeafTree
          (ExpandedState.initialIds cfgLeafTree) "a") "a" = true :=
  ⟨rfl, by decide, by decide⟩

/-- C2 as amended: the leaf guard is enforced one layer up, by the
render-context distributor.  For every leaf node, the render context
produced for it reports `isExpanded = false` even when its id is in the
expanded set, and the context-level `toggle` and `setExpanded` mutators are
no-ops on the state that invoke nothing. -/
theorem leaf_guard_at_render_context_level {α : Type} (e : List String)
    (a : Option String) (cfg : ExpandedCfg α) (s : List String)
    (id nm : String) (ds : Bool) (ct : α) (b : Bool)
    (depth index sibCount : Nat) :
    (renderPass e a (SidebarNode.leaf id nm ds ct) depth index sibCount).map
        RenderCtx.isExpanded = [false] ∧
    ctxToggle cfg s (SidebarNode.leaf id nm ds ct) = (s, none) ∧
    ctxSetExpanded cfg s (SidebarNode.leaf id nm ds ct) b = (s, none) := by
  refine ⟨?_, ?_, ?_⟩
  · simp [renderPass, mkRenderCtx, SidebarNode.isBranch]
  · simp [ctxToggle, SidebarNode.isBranch]
  · simp [ctxSetExpanded, SidebarNode.isBranch]

/-- C3 counterexample: the branch "docs" already has expansion state
`false`, yet the context-level `setExpanded(false)` still fires the
external on-toggle callback — the redundant call is not observably silent,
and two consecutive identical calls fire the callback twice where a single
call fires it once. -/
theorem redundant_setExpanded_fires_onToggle :
    ExpandedState.isExpanded cfgDocs [] "docs" = false ∧
    ctxSetExpanded cfgDocs [] docsBranch false =
      ([], some (docsBranch, false)) :=
  ⟨by decide, rfl⟩

/-- C3 as amended: `setExpanded(x, b); setExpanded(x, b)` is identical to a
single call at the level of the reconciler store (idempotence of the state
transition, hence of everything `isExpanded` reports), but the context-level
`setExpanded` of the distributor invokes the on-toggle callback on every
call to a branch, including calls that set the state the id already has. -/
theorem setExpanded_idempotent_but_callback_fires {α : Type}
    (cfg : ExpandedCfg α) (s : List String) (x : String) (b : Bool)
    (node : SidebarNode α) :
    ExpandedState.setExpanded cfg
        (ExpandedState.setExpanded cfg s x b) x b =
      ExpandedState.setExpanded cfg s x b ∧
    (node.isBranch = true →
      (ctxSetExpanded cfg s node b).2 = some (node, b)) := by
  constructor
  · by_cases hc : ExpandedState.isControlled cfg = true
    · simp [ExpandedState.setExpanded, hc]
    · rw [Bool.not_eq_true] at hc
      cases b
      · simp [ExpandedState.setExpanded, hc, jsSetDelete_delete]
      · simp [ExpandedState.setExpanded, hc,
          jsSetAdd_of_mem (mem_jsSetAdd_self s x)]
  · intro h
    simp [ctxSetExpanded, h]

/-- C3 witness: concrete instantiation on the uncontrolled docs tree. -/
theorem setExpanded_idempotent_but_callback_fires_witness :
    ExpandedState.setExpanded cfgDocs
        (ExpandedState.setExpanded cfgDocs [] "docs" true) "docs" true =
      ExpandedState.setExpanded cfgDocs [] "docs" true ∧
    (ctxSetExpanded cfgDocs [] docsBranch true).2 =
      some (docsBranch, true) :=
  ⟨(setExpanded_idempotent_but_callback_fires cfgDocs [] "docs" true
      docsBranch).1,
    (setExpanded_idempotent_but_callback_fires cfgDocs [] "docs" true
      docsBranch).2 rfl⟩

/-- C4: a traversal pass never visits descendants of a collapsed branch —
when the branch id is not in the expanded set, the pass produces exactly the
singleton context of the branch itself, so no descendant occurs in the
produced sequence; when the branch is expanded and has children, the pass
recurses into each child in list order with depth + 1, that child's index
and the sibling count of the child list. -/
theorem collapsed_branch_never_recursed {α : Type} (e : List String)
    (a : Option String) (id nm : String) (ds : Bool)
    (children : List (SidebarNode α)) (ct : Option α)
    (depth index sibCount : Nat) :
    (jsSetHas e id = false →
      renderPass e a (SidebarNode.branch id nm ds children ct) depth index
          sibCount =
        [mkRenderCtx e a (SidebarNode.branch id nm ds children ct) depth
          index sibCount]) ∧
    (jsSetHas e id = true → children ≠ [] →
      renderPass e a (SidebarNode.branch id nm ds children ct) depth index
          sibCount =
        mkRenderCtx e a (SidebarNode.branch id nm ds children ct) depth
            index sibCount ::
          ((children.zip (List.range children.length)).map
            (fun p => renderPass e a p.1 (depth + 1) p.2
              children.length)).flatten) := by
  constructor
  · intro h
    simp [renderPass, h]
  · intro h hne
    rw [renderPass]
    rw [if_pos (by simp [h, List.length_pos.mpr hne])]
    rw [renderChildren_eq_zip_range, List.range_eq_range']

/-- C4 witness: the docs branch collapsed yields only its own context; the
docs branch expanded recurses into both leaf children with depth 1, indices
0 and 1 and sibling count 2. -/
theorem collapsed_branch_never_recursed_witness :
    renderPass [] none docsBranch 0 0 1 =
      [mkRenderCtx [] none docsBranch 0 0 1] ∧
    renderPass ["docs"] none docsBranch 0 0 1 =
      mkRenderCtx ["docs"] none docsBranch 0 0 1 ::
        (([SidebarNode.leaf "intro" "intro" false (),
            SidebarNode.leaf "api" "api" false ()].zip
          (List.range 2)).map
            (fun p => renderPass ["docs"] none p.1 1 p.2 2)).flatten :=
  ⟨(collapsed_branch_never_recursed [] none "docs" "docs" false
      [SidebarNode.leaf "intro" "intro" false (),
        SidebarNode.leaf "api" "api" false ()] none 0 0 1).1 (by decide),
    (collapsed_branch_never_recursed ["docs"] none "docs" "docs" false
      [SidebarNode.leaf "intro" "intro" false (),
        SidebarNode.leaf "api" "api" false ()] none 0 0 1).2 (by decide)
      (by simp)⟩

/-- C5: the context-level `toggle` and `setExpanded` on a branch node call
into the expansion reconciler and fire the external on-toggle callback with
the node and the resulting boolean expansion state (the negation of the
currently reported state for `toggle`, the requested boolean for
`setExpanded`); the callback fires in controlled mode too, where the
reconciler leaves the internal store untouched; on a leaf node both
mutators return the store unchanged and invoke nothing. -/
theorem ctx_mutators_call_reconciler_and_callback {α : Type}
    (cfg : ExpandedCfg α) (s : List String) (node : SidebarNode α)
    (b : Bool) :
    (node.isBranch = true →
      ctxToggle cfg s node =
        (ExpandedState.toggle cfg s node.nodeId,
          some (node, !ExpandedState.isExpanded cfg s node.nodeId)) ∧
      ctxSetExpanded cfg s node b =
        (ExpandedState.setExpanded cfg s node.nodeId b, some (node, b))) ∧
    (node.isBranch = false →
      ctxToggle cfg s node = (s, none) ∧
      ctxSetExpanded cfg s node b = (s, none)) ∧
    (ExpandedState.isControlled cfg = true →
      (ctxToggle cfg s node).1 = s ∧ (ctxSetExpanded cfg s node b).1 = s) := by
  refine ⟨fun h => ⟨?_, ?_⟩, fun h => ⟨?_, ?_⟩, fun h => ?_⟩
  · simp [ctxToggle, h, ExpandedState.isExpanded]
  · simp [ctxSetExpanded, h]
  · simp [ctxToggle, h]
  · simp [ctxSetExpanded, h]
  · by_cases hb : node.isBranch = true
    · constructor <;>
        simp [ctxToggle, ctxSetExpanded, hb, ExpandedState.toggle,
          ExpandedState.setExpanded, h]
    · rw [Bool.not_eq_true] at hb
      constructor <;> simp [ctxToggle, ctxSetExpanded, hb]

/-- C5 witness: concrete instantiation on the controlled docs tree (branch
case: callback fires, store untouched) and on a leaf (mutators return the
store and invoke nothing). -/
theorem ctx_mutators_call_reconciler_and_callback_witness :
    ctxToggle cfgDocsControlled [] docsBranch =
      (ExpandedState.toggle cfgDocsControlled [] "docs",
        some (docsBranch,
          !ExpandedState.isExpanded cfgDocsControlled [] "docs")) ∧
    (ctxToggle cfgDocsControlled [] docsBranch).1 = [] ∧
    ctxToggle cfgDocsControlled []
        (SidebarNode.leaf "intro" "intro" false ()) = ([], none) :=
  ⟨((ctx_mutators_call_reconciler_and_callback cfgDocsControlled []
      docsBranch true).1 rfl).1,
    ((ctx_mutators_call_reconciler_and_callback cfgDocsControlled []
      docsBranch true).2.2 rfl).1,
    ((ctx_mutators_call_reconciler_and_callback cfgDocsControlled []
      (SidebarNode.leaf "intro" "intro" false ()) true).2.1 rfl).1⟩

/-- C6 counterexample: the source assigns unlisted folder names the sentinel
priority 999, so a listed name does not always sort before unlisted ones.
With the priority table listing only "Zz" at priority 1000, the unlisted
folder "Aa" (priority 999) sorts before the listed "Zz" — the claim says
unlisted names sort after all listed ones. -/
theorem sortNodes_unlisted_before_listed :
    prioThousand "Aa" = none ∧ prioThousand "Zz" = some 1000 ∧
    scanAa.isBranch = true ∧ scanZz.isBranch = true ∧
    (sortNodes prioThousand [scanZz, scanAa]).map ScanNode.name =
      ["Aa", "Zz"] :=
  ⟨by decide, by decide, rfl, rfl, by decide⟩

/-- C6 as amended: `sortNodes` puts branches first, sorted by the explicit
name-to-priority lookup with unlisted names receiving the sentinel priority
999 (hence sorting after every name listed below 999, and alphabetically
among themselves since they tie at 999) and ties broken alphabetically, then
leaves, sorted by numeric weight ascending with a missing weight sorting
last and ties broken by creation date descending; with folder priority
mapping only "React" (to 1) and subfolders "Git" and "React", the output
branch order is ["React", "Git"]. -/
theorem sortNodes_branches_then_leaves_sorted (prio : String → Option Int)
    (ns : List ScanNode) :
    ∃ bs ls,
      sortNodes prio ns = bs ++ ls ∧
      (∀ n ∈ bs, n.isBranch = true) ∧
      (∀ n ∈ ls, n.isLeaf = true) ∧
      bs.Perm (ns.filter fun n => n.isBranch) ∧
      ls.Perm (ns.filter fun n => n.isLeaf) ∧
      List.Sorted (branchLe prio) bs ∧
      List.Sorted leafLe ls ∧
      (sortNodes prioScenarioC [scanGit, scanReact]).map ScanNode.name =
        ["React", "Git"] := by
  refine ⟨List.insertionSort (branchLe prio) (ns.filter fun n => n.isBranch),
    List.insertionSort leafLe (ns.filter fun n => n.isLeaf),
    rfl, ?_, ?_, List.perm_insertionSort _ _, List.perm_insertionSort _ _,
    List.sorted_insertionSort _ _, List.sorted_insertionSort _ _, by decide⟩
  · intro n hn
    exact (List.mem_filter.mp ((List.mem_insertionSort _).mp hn)).2
  · intro n hn
    exact (List.mem_filter.mp ((List.mem_insertionSort _).mp hn)).2

/-- C6 witness: the Scenario C instance extracted from the
characterization. -/
theorem sortNodes_branches_then_leaves_sorted_witness :
    (sortNodes prioScenarioC [scanGit, scanReact]).map ScanNode.name =
      ["React", "Git"] := by
  obtain ⟨_, _, _, _, _, _, _, _, _, h⟩ :=
    sortNodes_branches_then_leaves_sorted prioScenarioC [scanGit, scanReact]
  exact h

/-- C7: evaluation of `processLeaf` as written.  When the file parses, the
function reaches the statement `frontMatter = data ...` whose `data` binding
is scoped to the earlier `try` block, so the call throws (aborting the
surrounding scan) instead of validating fields and emitting the leaf; only
a file that fails to parse takes the claimed path of recording a
`badMarkdown` warning keyed by the relative path and dropping the file. -/
theorem processLeaf_throws_after_successful_parse :
    processLeaf "React/mitigating-prop-drilling.md" (Except.ok fmSample) =
      Except.error "ReferenceError: data is not defined" ∧
    processLeaf "React/Untitled.md" (Except.error "bad front matter") =
      Except.ok
        { node := none
          warningEntry := some ("React/Untitled.md",
            { missingFields := [], slugMismatch := none,
              badMarkdown := some "bad front matter" }) } :=
  ⟨rfl, rfl⟩
